import Mathlib

set_option autoImplicit false

/-!
Verification development for the `2024-hello-llm` laboratory repository
(`lab_7_llm/main.py` and `lab_8_sft/main.py`).  The pandas `DataFrame`s the
pipelines manipulate are embedded as lists of named columns, an integer row
index and rows of optional cells; the third-party tokenizer / model /
metric-registry calls are abstracted as function parameters, and every
method of the repository is translated into an executable Lean definition.
-/

namespace HelloLLM

/-- A cell of a pandas DataFrame: `none` models a missing value (`NaN`). -/
abbrev Cell := Option String

/-- Shallow embedding of a pandas DataFrame: named columns, an integer row
index, and rows of cells (row `k` carries the label `index[k]`, and its
`j`-th cell belongs to the column named `cols[j]`). -/
structure DataFrame where
  cols : List String
  index : List Nat
  rows : List (List Cell)
  deriving Repr, DecidableEq

/-- Modelled from the spec: the canonical column name `ColumnNames.SOURCE`
of the `core_utils` package (absent from the sources); the spec calls it the
`source` column. -/
def ColumnNames.SOURCE : String := "source"

/-- Modelled from the spec: the canonical column name `ColumnNames.TARGET`;
the spec calls it the `target` column. -/
def ColumnNames.TARGET : String := "target"

/-- Modelled from the spec: the canonical column name
`ColumnNames.PREDICTION`; the spec speaks of the prediction column. -/
def ColumnNames.PREDICTION : String := "prediction"

/-- Modelled from the spec: the canonical column name `ColumnNames.PREMISE`
used by lab 8's dataset of premise/hypothesis pairs. -/
def ColumnNames.PREMISE : String := "premise"

/-- Modelled from the spec: the canonical column name
`ColumnNames.HYPOTHESIS` used by lab 8's dataset. -/
def ColumnNames.HYPOTHESIS : String := "hypothesis"

/-- Apply a column-renaming mapping, as `pandas.DataFrame.rename(columns=m)`
does: a column named `c` becomes `m[c]` when `c` is a key of `m`, and is
left unchanged otherwise. -/
def renameMap (m : List (String × String)) (c : String) : String :=
  match m.lookup c with
  | some c2 => c2
  | none => c

/-- Pandas `df.rename(columns=m)`: rename the columns, keep index and cells. -/
def DataFrame.rename (df : DataFrame) (m : List (String × String)) : DataFrame :=
  { df with cols := df.cols.map (renameMap m) }

/-- Position of the first column with the given name (pandas label lookup
along the column axis). -/
def colPos : List String → String → Option Nat
  | [], _ => none
  | c :: cs, x => if c = x then some 0 else (colPos cs x).map (· + 1)

/-- Position of the first row whose index label matches (pandas `.loc`). -/
def labelPos : List Nat → Nat → Option Nat
  | [], _ => none
  | i :: is, l => if i = l then some 0 else (labelPos is l).map (· + 1)

/-- Cell of `row` in the column at position `p` (an absent position reads as
a missing value). -/
def cellAtPos (row : List Cell) (p : Nat) : Cell := row.getD p none

/-- Whether `row` has a non-missing value in every column of `subset`
(positions resolved against `cols`). -/
def rowCompleteOn (cols : List String) (subset : List String) (row : List Cell) : Bool :=
  subset.all fun c =>
    match colPos cols c with
    | some p => (cellAtPos row p).isSome
    | none => false

/-- Pandas `df.dropna(subset=subset)`: drop the rows that miss a value in one of
the `subset` columns; `none` models the `KeyError` pandas raises when a
`subset` column does not exist.  Surviving rows keep their index labels. -/
def DataFrame.dropnaSubset (df : DataFrame) (subset : List String) : Option DataFrame :=
  if subset.all fun c => (colPos df.cols c).isSome then
    let kept := (df.index.zip df.rows).filter fun ir => rowCompleteOn df.cols subset ir.2
    some { cols := df.cols, index := kept.map Prod.fst, rows := kept.map Prod.snd }
  else none

/-- Pandas `df.dropna()`: drop every row containing at least one missing value. -/
def DataFrame.dropnaAll (df : DataFrame) : DataFrame :=
  let kept := (df.index.zip df.rows).filter fun ir => ir.2.all Option.isSome
  { cols := df.cols, index := kept.map Prod.fst, rows := kept.map Prod.snd }

/-- First-occurrence duplicate removal on labelled rows, the way
`df.drop_duplicates()` works: a row equal (in every column) to an earlier
row is dropped; `seen` accumulates the rows already kept. -/
def dedupRows : List (Nat × List Cell) → List (List Cell) → List (Nat × List Cell)
  | [], _ => []
  | x :: xs, seen =>
    if seen.contains x.2 then dedupRows xs seen
    else x :: dedupRows xs (x.2 :: seen)

/-- Pandas `df.drop_duplicates()`: keep only the first occurrence of each row. -/
def DataFrame.dropDuplicates (df : DataFrame) : DataFrame :=
  let kept := dedupRows (df.index.zip df.rows) []
  { cols := df.cols, index := kept.map Prod.fst, rows := kept.map Prod.snd }

/-- Pandas `df.reset_index(drop=True)`: relabel the rows `0, 1, 2, …`. -/
def DataFrame.resetIndex (df : DataFrame) : DataFrame :=
  { df with index := List.range df.rows.length }

/-- Column assignment `df[c] = vals` with a list of strings: pandas raises a
`ValueError` on a length mismatch (modelled by `none`); an existing column
is overwritten in place, a new column is appended on the right. -/
def DataFrame.setCol (df : DataFrame) (c : String) (vals : List String) : Option DataFrame :=
  if vals.length = df.rows.length then
    match colPos df.cols c with
    | some p =>
      some { df with rows := (df.rows.zip vals).map fun rv => rv.1.set p (some rv.2) }
    | none =>
      some { cols := df.cols ++ [c], index := df.index,
             rows := (df.rows.zip vals).map fun rv => rv.1 ++ [some rv.2] }
  else none

/-- Column read `df[c]` as the list of the column's cells; `none` models the
`KeyError` on a missing column. -/
def DataFrame.getCol (df : DataFrame) (c : String) : Option (List Cell) :=
  (colPos df.cols c).map fun p => df.rows.map fun row => cellAtPos row p

/-- Column projection `df[[c1, …, ck]]`; `none` models the `KeyError` when
a requested column is missing. -/
def DataFrame.selectCols (df : DataFrame) (cs : List String) : Option DataFrame :=
  if cs.all fun c => (colPos df.cols c).isSome then
    some { cols := cs, index := df.index,
           rows := df.rows.map fun row => cs.map fun c =>
             match colPos df.cols c with
             | some p => cellAtPos row p
             | none => none }
  else none

/-- Lab 7 `RawDataPreprocessor.transform`: rename `article` to `source` and
`abstract` to `target`, drop the rows missing a `source` or a `target`
value, and reindex the survivors from 0. -/
def transform7 (raw : DataFrame) : Option DataFrame :=
  ((raw.rename [("article", ColumnNames.SOURCE), ("abstract", ColumnNames.TARGET)]).dropnaSubset
      [ColumnNames.SOURCE, ColumnNames.TARGET]).map DataFrame.resetIndex

/-- Lab 8 `RawDataPreprocessor.transform`: rename `label` to `target`, drop
the rows with a missing value in any column, drop duplicate rows, and
reindex the survivors from 0. -/
def transform8 (raw : DataFrame) : DataFrame :=
  ((raw.rename [("label", ColumnNames.TARGET)]).dropnaAll).dropDuplicates.resetIndex

/-- Stated from the spec's words of claim C4, for comparison with
`transform8`: rename `label` to `target`, drop only the rows with a missing
value in the renamed canonical column, and reindex the survivors from 0. -/
def claimedTransform8 (raw : DataFrame) : Option DataFrame :=
  ((raw.rename [("label", ColumnNames.TARGET)]).dropnaSubset
      [ColumnNames.TARGET]).map DataFrame.resetIndex

/-- Python `str(...)` of a DataFrame cell: a missing value prints as `nan`. -/
def cellStr : Cell → String
  | some s => s
  | none => "nan"

/-- Lab 7 `TaskDataset.__init__`: the dataset stores the DataFrame as is. -/
def TaskDataset.mk7 (data : DataFrame) : DataFrame := data

/-- Lab 8 `TaskDataset.__init__`: the dataset stores the DataFrame as is. -/
def TaskDataset.mk8 (data : DataFrame) : DataFrame := data

/-- Method `TaskDataset.__len__` (`len(self._data)`, the number of rows) as a state
transformer on the wrapped DataFrame: the result together with the state
the call leaves behind. -/
def TaskDataset.lenM (d : DataFrame) : Nat × DataFrame := (d.rows.length, d)

/-- The `TaskDataset.data` property, as a state transformer: it returns the
wrapped DataFrame itself and leaves it unchanged. -/
def TaskDataset.dataM (d : DataFrame) : DataFrame × DataFrame := (d, d)

/-- Lab 7 `TaskDataset.__getitem__`:
`tuple([str(self._data.loc[index, 'source'])])`, as a state transformer;
`none` models the `KeyError` when the label or the column is absent. -/
def TaskDataset.getitemM7 (d : DataFrame) (i : Nat) : Option (List String) × DataFrame :=
  (match labelPos d.index i, colPos d.cols ColumnNames.SOURCE with
   | some r, some p => (d.rows.get? r).map fun row => [cellStr (cellAtPos row p)]
   | _, _ => none, d)

/-- Lab 8 `TaskDataset.__getitem__`: the positional row `self._data.iloc[index]`
projected to its `premise` and `hypothesis` fields, as a 2-tuple. -/
def TaskDataset.getitemM8 (d : DataFrame) (i : Nat) : Option (List String) × DataFrame :=
  (match d.rows.get? i, colPos d.cols ColumnNames.PREMISE,
       colPos d.cols ColumnNames.HYPOTHESIS with
   | some row, some pp, some hp =>
     some [cellStr (cellAtPos row pp), cellStr (cellAtPos row hp)]
   | _, _, _ => none, d)

/-- The whitespace characters Python's `str.strip()` removes (the Unicode
whitespace set of `str.isspace`). -/
def pySpaceChars : List Char :=
  ['\t', '\n', '\x0b', '\x0c', '\r', '\x1c', '\x1d', '\x1e', '\x1f', ' ',
   '\u0085', ' ', ' ', ' ', ' ', ' ', ' ',
   ' ', ' ', ' ', ' ', ' ', ' ', ' ',
   ' ', ' ', ' ', ' ', '　']

/-- Whether a character is Python whitespace. -/
def isPySpace (c : Char) : Bool := pySpaceChars.contains c

/-- Python `str.strip()`: remove leading and trailing whitespace. -/
def pyStrip (s : String) : String :=
  ⟨((s.toList.dropWhile isPySpace).reverse.dropWhile isPySpace).reverse⟩

/-- Whether a string has neither a leading nor a trailing whitespace
character. -/
def noEdgeWS (s : String) : Bool :=
  (match s.toList.head? with | some c => !isPySpace c | none => true) &&
  (match s.toList.getLast? with | some c => !isPySpace c | none => true)

/-- Modelled from the spec: abstract interface of the third-party tokenizer
and sequence-to-sequence model lab 7's pipeline wraps (the `transformers`
library is external to this repository).  `tokenize texts padding truncation`
stands for the tokenizer call producing the encoded batch (`input_ids`
together with the matching `attention_mask`); `generate encoded maxLength`
stands for `model.generate(...)`, the model's (beam-search) decoding of the
encoded batch bounded by `max_length`; `batchDecode` stands for
`tokenizer.batch_decode(..., skip_special_tokens=True)`. -/
structure Lab7Model where
  tokenize : List String → Bool → Bool → List (List Nat)
  generate : List (List Nat) → Nat → List (List Nat)
  batchDecode : List (List Nat) → List String

/-- The stripped predictions lab 7's `_infer_batch` computes for the texts
of one batch: tokenize with the given flags, generate bounded by
`maxLength`, batch-decode, strip each decoded string. -/
def batchPreds7 (m : Lab7Model) (maxLength : Nat) (texts : List String) : List String :=
  (m.batchDecode (m.generate (m.tokenize texts true true) maxLength)).map pyStrip

/-- Lab 7 `LLMPipeline._infer_batch`: tokenize `list(sample_batch[0])` with
`padding=True, truncation=True`, generate with `max_length=self._max_length`,
batch-decode and strip every prediction; `none` models the `IndexError` on
an empty `sample_batch`. -/
def inferBatch7 (m : Lab7Model) (maxLength : Nat) (sampleBatch : List (List String)) :
    Option (List String) :=
  sampleBatch.head?.map fun texts => batchPreds7 m maxLength texts

/-- Lab 7 `LLMPipeline.infer_sample`: `self._infer_batch([sample])[0]`;
`none` models the `IndexError` when the batch result is empty. -/
def inferSample7 (m : Lab7Model) (maxLength : Nat) (sample : List String) : Option String :=
  (inferBatch7 m maxLength [sample]).bind List.head?

/-- Consecutive chunks of size `bs`: the batches a sequential `DataLoader`
with `batch_size = bs` draws from a dataset's item list (a `DataLoader`
rejects `bs = 0` at construction, so that case never arises). -/
def chunkList {α : Type} (bs : Nat) (xs : List α) : List (List α) :=
  if hbs : bs = 0 then []
  else
    match xs with
    | [] => []
    | x :: rest => (x :: rest).take bs :: chunkList bs ((x :: rest).drop bs)
termination_by xs.length
decreasing_by
  simp only [List.length_drop, List.length_cons]
  omega

/-- Default `DataLoader` collation of a batch of equally long tuples: the
tuple of component lists (`[(a1, b1), (a2, b2)]` becomes `([a1, a2], [b1, b2])`). -/
def collate (batch : List (List String)) : List (List String) :=
  match batch with
  | [] => []
  | t :: _ => (List.range t.length).map fun j => batch.map fun tup => tup.getD j ""

/-- Sequence a fallible function over a list, failing on the first failure
(the effect of a Python loop whose body may raise). -/
def mapMO {α β : Type} (f : α → Option β) : List α → Option (List β)
  | [] => some []
  | x :: xs =>
    match f x, mapMO f xs with
    | some y, some ys => some (y :: ys)
    | _, _ => none

/-- Lab 7 `LLMPipeline.infer_dataset`: draw the dataset items in index order
through a sequential `DataLoader` with the pipeline's batch size (chunk,
then collate), run `_infer_batch` on every batch, concatenate the batch
predictions and attach them to a copy of the dataset's DataFrame as the
`prediction` column.  `none` models the exceptions of the underlying calls
(`DataLoader` rejecting `batch_size = 0`, a `KeyError` inside
`__getitem__`, a length-mismatched column assignment). -/
def inferDataset7 (m : Lab7Model) (maxLength batchSize : Nat) (df : DataFrame) :
    Option DataFrame :=
  if batchSize = 0 then none
  else
    (mapMO (fun i => (TaskDataset.getitemM7 df i).1) (List.range df.rows.length)).bind
      fun items =>
        (mapMO (fun b => inferBatch7 m maxLength (collate b))
            (chunkList batchSize items)).bind
          fun preds => df.setCol ColumnNames.PREDICTION preds.flatten

/-- Modelled from the spec: abstract interface of the third-party tokenizer
and sequence-classification model lab 8's pipeline wraps.  `modelSet` is
the truthiness of `self._model`; `tokenizePair premises hypotheses padding
truncation` stands for the pair-tokenizer call producing the encoded batch;
`logits` stands for the classifier forward pass `self._model(**tokens).logits`,
one row of class scores per encoded pair. -/
structure Lab8Model where
  modelSet : Bool
  tokenizePair : List String → List String → Bool → Bool → List (List Nat)
  logits : List (List Nat) → List (List Int)

/-- Index of the first maximal entry of a row (`torch.argmax` along the
class axis); `i` indexes the current element, `best`/`bv` the best so far. -/
def argmaxGo : Nat → Nat → Int → List Int → Nat
  | _, best, _, [] => best
  | i, best, bv, x :: xs =>
    if bv < x then argmaxGo (i + 1) i x xs else argmaxGo (i + 1) best bv xs

/-- Index of the first maximal entry of a non-empty row; 0 on the empty row. -/
def argmaxIdx : List Int → Nat
  | [] => 0
  | x :: xs => argmaxGo 1 0 x xs

/-- The predictions lab 8's `_infer_batch` computes for one collated batch:
tokenize the premise and hypothesis component lists with `padding=True,
truncation=True`, run the classifier, and render each row's argmax class
with `str`. -/
def batchPreds8 (m : Lab8Model) (prems hyps : List String) : List String :=
  (m.logits (m.tokenizePair prems hyps true true)).map fun row => toString (argmaxIdx row)

/-- Lab 8 `LLMPipeline._infer_batch`: when the model is set, tokenize the two
strings of the single sample (on a `sample_batch` of length one) or the two
collated component lists (otherwise) with `padding=True, truncation=True`,
classify, and render each row's argmax logit index with `str`.  `none`
models the `NameError` on a falsy model (`output` is then unbound) and the
`IndexError` on too-short batches or tuples. -/
def inferBatch8 (m : Lab8Model) (sampleBatch : List (List String)) : Option (List String) :=
  if m.modelSet then
    (if sampleBatch.length = 1 then
        match sampleBatch with
        | [s] =>
          match s.get? 0, s.get? 1 with
          | some a, some b => some (m.tokenizePair [a] [b] true true)
          | _, _ => none
        | _ => none
      else
        match sampleBatch.get? 0, sampleBatch.get? 1 with
        | some t0, some t1 => some (m.tokenizePair t0 t1 true true)
        | _, _ => none).map fun toks =>
      (m.logits toks).map fun row => toString (argmaxIdx row)
  else none

/-- Lab 8 `LLMPipeline.infer_sample`: return `None` when the model is not
set, else the first element of `self._infer_batch((sample,))`.  The outer
`Option` models exceptions; the inner one distinguishes Python's `None`
result from a string prediction. -/
def inferSample8 (m : Lab8Model) (sample : List String) : Option (Option String) :=
  if m.modelSet then
    (inferBatch8 m [sample]).bind fun r => r.head?.map some
  else some none

/-- Lab 8 `LLMPipeline.infer_dataset`: batch the dataset's
(premise, hypothesis) items through a sequential `DataLoader`, collect the
predictions of `_infer_batch` on each collated batch, attach them as the
`prediction` column and keep only the `target` and `prediction` columns. -/
def inferDataset8 (m : Lab8Model) (batchSize : Nat) (df : DataFrame) : Option DataFrame :=
  if batchSize = 0 then none
  else
    (mapMO (fun i => (TaskDataset.getitemM8 df i).1) (List.range df.rows.length)).bind
      fun items =>
        (mapMO (fun b => inferBatch8 m (collate b)) (chunkList batchSize items)).bind
          fun preds =>
            (df.setCol ColumnNames.PREDICTION preds.flatten).bind fun res =>
              res.selectCols [ColumnNames.TARGET, ColumnNames.PREDICTION]

/-- Lab 8 `SFTPipeline.__init__`: the body is empty (it does not even call
the parent constructor), so whatever the arguments are, the constructed
object stores no attribute at all; the attribute dictionary of the new
object is the empty one. -/
def SFTPipeline.init {M D P : Type} (_modelName : M) (_dataset : D) (_sftParams : P) :
    List (String × String) :=
  []

/-- Lab 8 `SFTPipeline.run`: the body is empty, so the call returns `None`
and leaves the object's attributes and every other piece of observable
state untouched (modelled by threading an arbitrary world value through). -/
def SFTPipeline.run {W : Type} (attrs : List (String × String)) (world : W) :
    Option Unit × List (String × String) × W :=
  (none, attrs, world)

/-- Python `dict` assignment `d[k] = v`: overwrite the existing entry for
`k` in place, else append a new entry at the end. -/
def dictInsert {S : Type} : List (String × S) → String → S → List (String × S)
  | [], k, v => [(k, v)]
  | (k', v') :: rest, k, v =>
    if k' = k then (k, v) :: rest else (k', v') :: dictInsert rest k v

/-- Python `dict` read `d[k]` (first entry with the given key). -/
def dictGet {S : Type} : List (String × S) → String → Option S
  | [], _ => none
  | (k', v) :: rest, k => if k' = k then some v else dictGet rest k

/-- The key lab 7's `TaskEvaluator.run` reads from a metric's score dict:
`rougeL` for the `rouge` metric, the metric's own name otherwise. -/
def scoreKey (metric : String) : String :=
  if metric = "rouge" then "rougeL" else metric

/-- The evaluation loop of `TaskEvaluator.run`: for each requested metric,
look the `keyOf metric` entry up in the score dict the registry computes
and store it in the evaluation dict under the metric's name; `none` models
the `KeyError` on a missing score entry. -/
def evalLoop {S : Type} (registry : String → List Cell → List Cell → List (String × S))
    (keyOf : String → String) (preds targets : List Cell) :
    List String → List (String × S) → Option (List (String × S))
  | [], acc => some acc
  | metric :: rest, acc =>
    match dictGet (registry metric preds targets) (keyOf metric) with
    | some v => evalLoop registry keyOf preds targets rest (dictInsert acc metric v)
    | none => none

/-- Lab 7 `TaskEvaluator.run`: with the predictions file already read into
`csv` (`pd.read_csv` is third-party I/O, abstracted as this argument) and
the metric registry's `load(metric, seed=77).compute(predictions,
references)` abstracted as `registry metric predictions references`, build
the evaluation dict with one score per requested metric, reading the
`rougeL` entry for the `rouge` metric and the metric's own entry otherwise;
`none` models a `KeyError` (missing column or missing score entry). -/
def evaluatorRun7 {S : Type} (registry : String → List Cell → List Cell → List (String × S))
    (csv : DataFrame) (metrics : List String) : Option (List (String × S)) :=
  match csv.getCol ColumnNames.PREDICTION, csv.getCol ColumnNames.TARGET with
  | some preds, some targets => evalLoop registry scoreKey preds targets metrics []
  | _, _ => none

/-- Lab 8 `TaskEvaluator.run`: as in lab 7 but with no special case — the
entry stored for each metric is the score dict's entry under the metric's
own name. -/
def evaluatorRun8 {S : Type} (registry : String → List Cell → List Cell → List (String × S))
    (csv : DataFrame) (metrics : List String) : Option (List (String × S)) :=
  match csv.getCol ColumnNames.PREDICTION, csv.getCol ColumnNames.TARGET with
  | some preds, some targets => evalLoop registry (fun metric => metric) preds targets metrics []
  | _, _ => none

/-- First-occurrence duplicate removal on plain rows: the row lists that
survive `drop_duplicates`, used to characterize `transform8`; `seen`
accumulates the rows already kept. -/
def firstOccurrences : List (List Cell) → List (List Cell) → List (List Cell)
  | [], _ => []
  | r :: rs, seen =>
    if seen.contains r then firstOccurrences rs seen
    else r :: firstOccurrences rs (r :: seen)

/-- The texts lab 7's dataset yields, row by row: each row's `source` cell
rendered with `str` (the empty list stands in when the column is absent, a
case the theorems exclude by hypothesis). -/
def sourceTexts (df : DataFrame) : List String :=
  match colPos df.cols ColumnNames.SOURCE with
  | some p => df.rows.map fun row => cellStr (cellAtPos row p)
  | none => []

/-- The (premise, hypothesis) pairs lab 8's dataset yields, row by row. -/
def pairTexts (df : DataFrame) : List (String × String) :=
  match colPos df.cols ColumnNames.PREMISE, colPos df.cols ColumnNames.HYPOTHESIS with
  | some pp, some hp =>
    df.rows.map fun row => (cellStr (cellAtPos row pp), cellStr (cellAtPos row hp))
  | _, _ => []

/-- A concrete instance of the abstract lab 7 library interface, used to
evaluate the theorems on closed inputs: every text encodes to one token
row, generation echoes its input, and decoding prints each row's length
between spaces (so that stripping is visible). -/
def wModel7 : Lab7Model where
  tokenize := fun ts _ _ => ts.map fun s => [s.length]
  generate := fun xs _ => xs
  batchDecode := fun xs => xs.map fun r => " p" ++ toString r.length ++ " "

/-- A concrete instance of the abstract lab 8 library interface with the
model set: each pair encodes to one token row and every row's logits put
class 1 on top. -/
def wModel8 : Lab8Model where
  modelSet := true
  tokenizePair := fun ps _ _ _ => ps.map fun s => [s.length]
  logits := fun toks => toks.map fun _ => [0, 5]

/-- The lab 8 library interface with a falsy model, for the `None` branch. -/
def wModel8Off : Lab8Model where
  modelSet := false
  tokenizePair := fun _ _ _ _ => []
  logits := fun _ => []

/-- A tiny concrete summarization dataset for the witnesses of lab 7. -/
def wDf7 : DataFrame where
  cols := ["source", "target"]
  index := [0, 1, 2]
  rows := [[some "aa", some "x"], [some "b", some "y"], [some "ccc", some "z"]]

/-- A tiny concrete premise/hypothesis dataset for the witnesses of lab 8. -/
def wDf8 : DataFrame where
  cols := ["premise", "hypothesis", "target"]
  index := [0, 1, 2]
  rows := [[some "p1", some "h1", some "0"], [some "p2", some "h2", some "1"],
           [some "p3", some "h3", some "0"]]

/-- A concrete predictions file (already parsed) for C5's witness. -/
def wCsv : DataFrame where
  cols := ["target", "prediction"]
  index := [0, 1]
  rows := [[some "x", some "x"], [some "y", some "z"]]

/-- A concrete metric registry for C5's witness: each metric's score dict
holds the metric's own entry (the number of predictions) and a `rougeL`
entry (one more). -/
def wRegistry (metric : String) (preds _targets : List Cell) : List (String × Nat) :=
  [(metric, preds.length), ("rougeL", preds.length + 1)]

/-- A raw lab 7 DataFrame (with `article`/`abstract` columns and rows with
assorted missing values) used to evaluate the preprocessing theorems. -/
def rawW7 : DataFrame where
  cols := ["article", "abstract"]
  index := [0, 1, 2]
  rows := [[some "a", none], [some "b", some "c"], [none, some "d"]]

/-- A raw lab 8 DataFrame on which the code's `transform` and claim C4's
description disagree: the second row duplicates the first, and the third
row misses its `premise` but has a present `label`. -/
def cexRaw8 : DataFrame where
  cols := ["premise", "hypothesis", "label"]
  index := [0, 1, 2]
  rows := [[some "a", some "b", some "1"], [some "a", some "b", some "1"],
           [none, some "b", some "0"]]

theorem labelPos_range' (n : Nat) :
    ∀ (s i : Nat), i < n → labelPos (List.range' s n) (s + i) = some i := by
  induction n with
  | zero => intro s i h; omega
  | succ n ih =>
    intro s i h
    rw [List.range'_succ]
    cases i with
    | zero => simp [labelPos]
    | succ j =>
      have hne : ¬ s = s + (j + 1) := by omega
      rw [labelPos, if_neg hne, show s + (j + 1) = (s + 1) + j by omega,
        ih (s + 1) j (by omega)]
      rfl

theorem labelPos_range (n i : Nat) (h : i < n) : labelPos (List.range n) i = some i := by
  have := labelPos_range' n 0 i h
  simpa [List.range_eq_range'] using this

theorem zip_filter_map_snd {α β : Type} (p : β → Bool) :
    ∀ (as : List α) (bs : List β), as.length = bs.length →
      ((as.zip bs).filter fun ab => p ab.2).map Prod.snd = bs.filter p := by
  intro as
  induction as with
  | nil =>
    intro bs h
    cases bs with
    | nil => simp
    | cons b bs => simp at h
  | cons a as ih =>
    intro bs h
    cases bs with
    | nil => simp at h
    | cons b bs =>
      have h' : as.length = bs.length := by simpa using h
      by_cases hpb : p b
      · simp [List.zip_cons_cons, List.filter_cons, hpb, ih bs h']
      · simp [List.zip_cons_cons, List.filter_cons, hpb, ih bs h']

theorem zip_fst_snd {α β : Type} :
    ∀ l : List (α × β), (l.map Prod.fst).zip (l.map Prod.snd) = l := by
  intro l
  induction l with
  | nil => rfl
  | cons x xs ih => simp [List.zip_cons_cons, ih]

theorem dedupRows_map_snd :
    ∀ (prs : List (Nat × List Cell)) (seen : List (List Cell)),
      (dedupRows prs seen).map Prod.snd = firstOccurrences (prs.map Prod.snd) seen := by
  intro prs
  induction prs with
  | nil => intro seen; rfl
  | cons x xs ih =>
    intro seen
    by_cases h : x.2 ∈ seen
    · simp [dedupRows, firstOccurrences, h, ih]
    · simp [dedupRows, firstOccurrences, h, ih]

theorem dictInsert_of_not_mem {S : Type} :
    ∀ (acc : List (String × S)) (k : String) (v : S),
      k ∉ acc.map Prod.fst → dictInsert acc k v = acc ++ [(k, v)] := by
  intro acc
  induction acc with
  | nil => intro k v _; rfl
  | cons x xs ih =>
    intro k v h
    obtain ⟨k', v'⟩ := x
    simp only [List.map_cons, List.mem_cons] at h
    push_neg at h
    rw [dictInsert, if_neg (fun he => h.1 he.symm), ih k v h.2]
    rfl

theorem dictGet_map_self {S : Type} (f : String → S) :
    ∀ (l : List String) (mt : String), mt ∈ l →
      dictGet (l.map fun m => (m, f m)) mt = some (f mt) := by
  intro l
  induction l with
  | nil => intro mt h; simp at h
  | cons m ms ih =>
    intro mt h
    by_cases hm : m = mt
    · subst hm; simp [dictGet]
    · have hmem : mt ∈ ms := by
        rcases List.mem_cons.mp h with h1 | h2
        · exact absurd h1.symm hm
        · exact h2
      simp [dictGet, hm, ih mt hmem]

theorem mapMO_eq_map {α β : Type} (f : α → Option β) (g : α → β) :
    ∀ l : List α, (∀ a ∈ l, f a = some (g a)) → mapMO f l = some (l.map g) := by
  intro l
  induction l with
  | nil => intro _; rfl
  | cons x xs ih =>
    intro h
    have hx := h x (by simp)
    have hxs := ih fun a ha => h a (by simp [ha])
    simp [mapMO, hx, hxs]

theorem mapMO_append {α β : Type} (f : α → Option β) :
    ∀ l1 l2 : List α,
      mapMO f (l1 ++ l2) = (mapMO f l1).bind fun y1 => (mapMO f l2).map fun y2 => y1 ++ y2 := by
  intro l1 l2
  induction l1 with
  | nil =>
    cases h2 : mapMO f l2 <;> simp [mapMO, h2]
  | cons x xs ih =>
    cases hx : f x <;> cases hxs : mapMO f xs <;> cases h2 : mapMO f l2 <;>
      simp_all [mapMO]

theorem mapMO_mem {α β : Type} (f : α → Option β) :
    ∀ (l : List α) (ys : List β), mapMO f l = some ys → ∀ y ∈ ys, ∃ x ∈ l, f x = some y := by
  intro l
  induction l with
  | nil =>
    intro ys h y hy
    simp [mapMO] at h
    subst h
    simp at hy
  | cons x xs ih =>
    intro ys h y hy
    cases hfx : f x with
    | none => rw [mapMO, hfx] at h; simp at h
    | some b =>
      cases hxs : mapMO f xs with
      | none => rw [mapMO, hfx, hxs] at h; simp at h
      | some bs =>
        rw [mapMO, hfx, hxs] at h
        simp at h
        subst h
        rcases List.mem_cons.mp hy with h1 | h2
        · exact ⟨x, by simp, h1 ▸ hfx⟩
        · obtain ⟨x', hx', hfx'⟩ := ih bs hxs y h2
          exact ⟨x', by simp [hx'], hfx'⟩

theorem mapMO_map_comp {α β γ : Type} (f : β → Option γ) (h : α → β) :
    ∀ l : List α, mapMO f (l.map h) = mapMO (fun x => f (h x)) l := by
  intro l
  induction l with
  | nil => rfl
  | cons x xs ih => simp [mapMO, ih]

theorem colPos_lt :
    ∀ (cols : List String) (c : String) (p : Nat), colPos cols c = some p → p < cols.length := by
  intro cols
  induction cols with
  | nil => intro c p h; simp [colPos] at h
  | cons d ds ih =>
    intro c p h
    by_cases hd : d = c
    · rw [colPos, if_pos hd] at h
      simp only [Option.some.injEq] at h
      simp only [List.length_cons, ← h]
      omega
    · rw [colPos, if_neg hd] at h
      cases hq : colPos ds c with
      | none => rw [hq] at h; simp at h
      | some q =>
        rw [hq] at h
        simp only [Option.map_some', Option.some.injEq] at h
        have := ih c q hq
        simp only [List.length_cons, ← h]
        omega

theorem colPos_append_left :
    ∀ (cols rest : List String) (c : String) (p : Nat),
      colPos cols c = some p → colPos (cols ++ rest) c = some p := by
  intro cols rest
  induction cols with
  | nil => intro c p h; simp [colPos] at h
  | cons d ds ih =>
    intro c p h
    by_cases hd : d = c
    · rw [colPos, if_pos hd] at h
      rw [List.cons_append, colPos, if_pos hd]
      exact h
    · rw [colPos, if_neg hd] at h
      cases hq : colPos ds c with
      | none => rw [hq] at h; simp at h
      | some q =>
        rw [hq] at h
        rw [List.cons_append, colPos, if_neg hd, ih c q hq]
        exact h

theorem colPos_append_right :
    ∀ (cols : List String) (c : String),
      colPos cols c = none → colPos (cols ++ [c]) c = some cols.length := by
  intro cols
  induction cols with
  | nil => intro c _; simp [colPos]
  | cons d ds ih =>
    intro c h
    by_cases hd : d = c
    · rw [colPos, if_pos hd] at h
      simp at h
    · rw [colPos, if_neg hd] at h
      cases hq : colPos ds c with
      | none =>
        rw [List.cons_append, colPos, if_neg hd, ih c hq]
        simp
      | some q => rw [hq] at h; simp at h

theorem colPos_get :
    ∀ (cols : List String) (c : String) (p : Nat),
      colPos cols c = some p → cols.get? p = some c := by
  intro cols
  induction cols with
  | nil => intro c p h; simp [colPos] at h
  | cons d ds ih =>
    intro c p h
    by_cases hd : d = c
    · rw [colPos, if_pos hd] at h
      simp at h
      subst h
      simp [hd]
    · rw [colPos, if_neg hd] at h
      cases hq : colPos ds c with
      | none => rw [hq] at h; simp at h
      | some q =>
        rw [hq] at h
        simp at h
        subst h
        simpa using ih c q hq

theorem getD_map_colPos {β : Type} (g : String → β) (d : β) :
    ∀ (cs : List String) (c : String) (j : Nat),
      colPos cs c = some j → (cs.map g).getD j d = g c := by
  intro cs
  induction cs with
  | nil => intro c j h; simp [colPos] at h
  | cons e es ih =>
    intro c j h
    by_cases he : e = c
    · rw [colPos, if_pos he] at h
      simp at h
      subst h
      simp [he]
    · rw [colPos, if_neg he] at h
      cases hq : colPos es c with
      | none => rw [hq] at h; simp at h
      | some q =>
        rw [hq] at h
        simp at h
        subst h
        simpa using ih c q hq

theorem chunkList_zero {α : Type} (xs : List α) : chunkList 0 xs = [] := by
  unfold chunkList
  simp

theorem chunkList_nil {α : Type} (bs : Nat) : chunkList bs ([] : List α) = [] := by
  unfold chunkList
  split <;> rfl

theorem chunkList_cons {α : Type} (bs : Nat) (hbs : bs ≠ 0) (x : α) (rest : List α) :
    chunkList bs (x :: rest) =
      (x :: rest).take bs :: chunkList bs ((x :: rest).drop bs) := by
  conv_lhs => unfold chunkList
  simp [hbs]

theorem chunkList_flatten_aux {α : Type} (bs : Nat) (hbs : bs ≠ 0) :
    ∀ (k : Nat) (xs : List α), xs.length ≤ k → (chunkList bs xs).flatten = xs := by
  intro k
  induction k with
  | zero =>
    intro xs h
    have : xs = [] := List.eq_nil_of_length_eq_zero (Nat.le_zero.mp h)
    simp [this, chunkList_nil]
  | succ k ih =>
    intro xs h
    cases xs with
    | nil => simp [chunkList_nil]
    | cons x rest =>
      simp only [List.length_cons] at h
      rw [chunkList_cons bs hbs, List.flatten_cons,
        ih ((x :: rest).drop bs) (by simp only [List.length_drop, List.length_cons]; omega)]
      exact List.take_append_drop bs (x :: rest)

theorem chunkList_flatten {α : Type} (bs : Nat) (hbs : bs ≠ 0) (xs : List α) :
    (chunkList bs xs).flatten = xs :=
  chunkList_flatten_aux bs hbs xs.length xs le_rfl

theorem chunkList_map_aux {α β : Type} (bs : Nat) (hbs : bs ≠ 0) (f : α → β) :
    ∀ (k : Nat) (xs : List α), xs.length ≤ k →
      chunkList bs (xs.map f) = (chunkList bs xs).map (List.map f) := by
  intro k
  induction k with
  | zero =>
    intro xs h
    have : xs = [] := List.eq_nil_of_length_eq_zero (Nat.le_zero.mp h)
    simp [this, chunkList_nil]
  | succ k ih =>
    intro xs h
    cases xs with
    | nil => simp [chunkList_nil]
    | cons x rest =>
      simp only [List.length_cons] at h
      rw [List.map_cons, chunkList_cons bs hbs, chunkList_cons bs hbs x rest, List.map_cons]
      rw [← List.map_cons f x rest]
      rw [← List.map_take, ← List.map_drop]
      rw [ih ((x :: rest).drop bs) (by simp only [List.length_drop, List.length_cons]; omega)]

theorem chunkList_map {α β : Type} (bs : Nat) (hbs : bs ≠ 0) (f : α → β) (xs : List α) :
    chunkList bs (xs.map f) = (chunkList bs xs).map (List.map f) :=
  chunkList_map_aux bs hbs f xs.length xs le_rfl

theorem chunkList_ne_nil_aux {α : Type} (bs : Nat) (hbs : bs ≠ 0) :
    ∀ (k : Nat) (xs : List α), xs.length ≤ k → ∀ c ∈ chunkList bs xs, c ≠ [] := by
  intro k
  induction k with
  | zero =>
    intro xs h
    have : xs = [] := List.eq_nil_of_length_eq_zero (Nat.le_zero.mp h)
    simp [this, chunkList_nil]
  | succ k ih =>
    intro xs h c hc
    cases xs with
    | nil => simp [chunkList_nil] at hc
    | cons x rest =>
      simp only [List.length_cons] at h
      rw [chunkList_cons bs hbs] at hc
      rcases List.mem_cons.mp hc with h1 | h2
      · subst h1
        simp [List.take_eq_nil_iff, hbs]
      · exact ih ((x :: rest).drop bs)
          (by simp only [List.length_drop, List.length_cons]; omega) c h2

theorem chunkList_ne_nil {α : Type} (bs : Nat) (hbs : bs ≠ 0) (xs : List α) :
    ∀ c ∈ chunkList bs xs, c ≠ [] :=
  chunkList_ne_nil_aux bs hbs xs.length xs le_rfl

theorem flatten_map_length {α β : Type} (f : List α → List β) :
    ∀ cs : List (List α), (∀ c ∈ cs, (f c).length = c.length) →
      ((cs.map f).flatten).length = cs.flatten.length := by
  intro cs
  induction cs with
  | nil => intro _; rfl
  | cons c cs ih =>
    intro h
    simp only [List.map_cons, List.flatten_cons, List.length_append]
    rw [h c (by simp), ih fun c' hc' => h c' (by simp [hc'])]

theorem collate_singletons (ts : List String) (hts : ts ≠ []) :
    collate (ts.map fun s => [s]) = [ts] := by
  cases ts with
  | nil => exact absurd rfl hts
  | cons t rest =>
    simp only [collate, List.map_cons, List.length_cons, List.length_nil]
    rw [show List.range 1 = [0] from rfl]
    simp [List.map_map, List.getD, Function.comp_def]

theorem collate_pairs (prs : List (String × String)) (h : prs ≠ []) :
    collate (prs.map fun pr => [pr.1, pr.2]) = [prs.map Prod.fst, prs.map Prod.snd] := by
  cases prs with
  | nil => exact absurd rfl h
  | cons pr rest =>
    simp only [collate, List.map_cons, List.length_cons, List.length_nil]
    rw [show List.range 2 = [0, 1] from rfl]
    simp [List.map_map, List.getD, Function.comp_def]

theorem mapMO_range_get {α β : Type} (g : α → β) :
    ∀ (rs : List α) (f : Nat → Option β),
      (∀ i, i < rs.length → f i = (rs.get? i).map g) →
      mapMO f (List.range rs.length) = some (rs.map g) := by
  intro rs
  induction rs using List.reverseRecOn with
  | nil => intro f _; rfl
  | append_singleton rs a ih =>
    intro f hf
    have hlen : (rs ++ [a]).length = rs.length + 1 := by simp
    rw [hlen, List.range_succ, mapMO_append]
    have h1 : mapMO f (List.range rs.length) = some (rs.map g) := by
      apply ih
      intro i hi
      rw [hf i (by simp; omega), List.get?_append hi]
    have h2 : f rs.length = some (g a) := by
      rw [hf rs.length (by simp), List.get?_concat_length]
      rfl
    rw [h1]
    simp [mapMO, h2, List.map_append]

theorem head?_dropWhile_not {α : Type} (P : α → Bool) :
    ∀ (l : List α) (c : α), (l.dropWhile P).head? = some c → P c = false := by
  intro l
  induction l with
  | nil => intro c h; simp [List.dropWhile] at h
  | cons x xs ih =>
    intro c h
    rw [List.dropWhile_cons] at h
    by_cases hp : P x
    · rw [if_pos hp] at h
      exact ih c h
    · rw [if_neg hp] at h
      simp only [List.head?_cons, Option.some.injEq] at h
      subst h
      exact Bool.eq_false_iff.mpr hp

theorem getLast?_dropWhile {α : Type} (P : α → Bool) :
    ∀ l : List α, l.dropWhile P ≠ [] → (l.dropWhile P).getLast? = l.getLast? := by
  intro l
  induction l with
  | nil => intro h; simp [List.dropWhile] at h
  | cons x xs ih =>
    intro h
    rw [List.dropWhile_cons] at h ⊢
    by_cases hp : P x
    · rw [if_pos hp] at h ⊢
      rw [ih h]
      have hxs : xs ≠ [] := by
        intro he
        subst he
        simp [List.dropWhile] at h
      cases xs with
      | nil => exact absurd rfl hxs
      | cons y ys => rw [List.getLast?_cons_cons]
    · rw [if_neg hp]

theorem noEdgeWS_pyStrip (s : String) : noEdgeWS (pyStrip s) = true := by
  have htl : (pyStrip s).toList
      = ((s.toList.dropWhile isPySpace).reverse.dropWhile isPySpace).reverse := rfl
  rw [noEdgeWS, htl]
  cases h2 : (s.toList.dropWhile isPySpace).reverse.dropWhile isPySpace with
  | nil => simp
  | cons c cs =>
    have hne : (s.toList.dropWhile isPySpace).reverse.dropWhile isPySpace ≠ [] := by
      rw [h2]; exact List.cons_ne_nil c cs
    have hrevne : (s.toList.dropWhile isPySpace).reverse ≠ [] := by
      intro he
      rw [he] at hne
      simp [List.dropWhile] at hne
    have hl1ne : s.toList.dropWhile isPySpace ≠ [] := by
      intro he
      rw [he] at hrevne
      simp at hrevne
    -- trailing edge of the stripped string: the head of the second pass
    have hcfalse : isPySpace c = false :=
      head?_dropWhile_not isPySpace (s.toList.dropWhile isPySpace).reverse c
        (by rw [h2]; rfl)
    -- leading edge of the stripped string: the head of the first pass
    obtain ⟨d, ds, hl1⟩ := List.exists_cons_of_ne_nil hl1ne
    have hdfalse : isPySpace d = false :=
      head?_dropWhile_not isPySpace s.toList d (by rw [hl1]; rfl)
    have hglast :
        ((s.toList.dropWhile isPySpace).reverse.dropWhile isPySpace).getLast?
          = some d := by
      rw [getLast?_dropWhile isPySpace _ hne, List.getLast?_reverse, hl1]
      rfl
    rw [h2] at hglast
    have hhead : ((c :: cs).reverse.head?) = some d := by
      rw [List.head?_reverse]
      exact hglast
    have hlast : ((c :: cs).reverse.getLast?) = some c := by
      rw [List.getLast?_reverse]
      rfl
    rw [hhead, hlast]
    simp [hdfalse, hcfalse]

theorem colPos_isSome_of_mem :
    ∀ (cs : List String) (c : String), c ∈ cs → ∃ j, colPos cs c = some j := by
  intro cs
  induction cs with
  | nil => intro c h; simp at h
  | cons d ds ih =>
    intro c h
    by_cases hd : d = c
    · exact ⟨0, by rw [colPos, if_pos hd]⟩
    · have hmem : c ∈ ds := by
        rcases List.mem_cons.mp h with h1 | h2
        · exact absurd h1.symm hd
        · exact h2
      obtain ⟨j, hj⟩ := ih c hmem
      exact ⟨j + 1, by rw [colPos, if_neg hd, hj]; rfl⟩

theorem zip_append_getD (n : Nat) :
    ∀ (rws : List (List Cell)) (vls : List String),
      (∀ r ∈ rws, r.length = n) → vls.length = rws.length →
      ((rws.zip vls).map fun rv => rv.1 ++ [some rv.2]).map (fun row => cellAtPos row n)
        = vls.map some := by
  intro rws
  induction rws with
  | nil =>
    intro vls _ h
    cases vls with
    | nil => rfl
    | cons v vs => simp at h
  | cons r rs ih =>
    intro vls hr h
    cases vls with
    | nil => simp at h
    | cons v vs =>
      simp only [List.zip_cons_cons, List.map_cons]
      congr 1
      · have hrn : r.length = n := hr r (by simp)
        rw [cellAtPos, ← hrn]
        rw [List.getD_eq_getElem?_getD, List.getElem?_concat_length]
        rfl
      · exact ih vs (fun r' hr' => hr r' (by simp [hr'])) (by simpa using h)

theorem zip_append_getD_lt (n q : Nat) (hq : q < n) :
    ∀ (rws : List (List Cell)) (vls : List String),
      (∀ r ∈ rws, r.length = n) → vls.length = rws.length →
      ((rws.zip vls).map fun rv => rv.1 ++ [some rv.2]).map (fun row => cellAtPos row q)
        = rws.map (fun row => cellAtPos row q) := by
  intro rws
  induction rws with
  | nil =>
    intro vls _ h
    cases vls with
    | nil => rfl
    | cons v vs => simp at h
  | cons r rs ih =>
    intro vls hr h
    cases vls with
    | nil => simp at h
    | cons v vs =>
      simp only [List.zip_cons_cons, List.map_cons]
      congr 1
      · have hrn : r.length = n := hr r (by simp)
        rw [cellAtPos, cellAtPos]
        rw [List.getD_eq_getElem?_getD, List.getD_eq_getElem?_getD,
          List.getElem?_append_left (by omega)]
      · exact ih vs (fun r' hr' => hr r' (by simp [hr'])) (by simpa using h)

theorem setCol_append_spec (df : DataFrame) (c : String) (vals : List String)
    (hc : colPos df.cols c = none) (hlen : vals.length = df.rows.length)
    (hrect : ∀ r ∈ df.rows, r.length = df.cols.length) :
    ∃ res, df.setCol c vals = some res ∧
      res.cols = df.cols ++ [c] ∧
      res.index = df.index ∧
      res.rows.length = df.rows.length ∧
      res.getCol c = some (vals.map some) ∧
      (∀ c' q, colPos df.cols c' = some q → res.getCol c' = df.getCol c') := by
  have hsc : df.setCol c vals = some
      { cols := df.cols ++ [c], index := df.index,
        rows := (df.rows.zip vals).map fun rv => rv.1 ++ [some rv.2] } := by
    rw [DataFrame.setCol, if_pos hlen, hc]
  refine ⟨_, hsc, rfl, rfl, ?_, ?_, ?_⟩
  · simp [List.length_zip, hlen]
  · rw [DataFrame.getCol]
    dsimp only
    rw [colPos_append_right df.cols c hc]
    simp only [Option.map_some']
    exact congrArg some (zip_append_getD df.cols.length df.rows vals hrect hlen)
  · intro c' q hq
    rw [DataFrame.getCol, DataFrame.getCol]
    dsimp only
    rw [colPos_append_left df.cols [c] c' q hq, hq]
    simp only [Option.map_some']
    exact congrArg some
      (zip_append_getD_lt df.cols.length q (colPos_lt df.cols c' q hq) df.rows vals hrect hlen)

theorem selectCols_spec (df : DataFrame) (cs : List String)
    (hall : ∀ c ∈ cs, (colPos df.cols c).isSome) :
    ∃ res, df.selectCols cs = some res ∧
      res.cols = cs ∧
      res.index = df.index ∧
      res.rows.length = df.rows.length ∧
      ∀ c ∈ cs, res.getCol c = df.getCol c := by
  have hcond : (cs.all fun c => (colPos df.cols c).isSome) = true := by
    rw [List.all_eq_true]
    intro c hc
    exact hall c hc
  have hsc : df.selectCols cs = some
      { cols := cs, index := df.index,
        rows := df.rows.map fun row => cs.map fun c =>
          match colPos df.cols c with
          | some p => cellAtPos row p
          | none => none } := by
    rw [DataFrame.selectCols, if_pos hcond]
  refine ⟨_, hsc, rfl, rfl, by simp, ?_⟩
  intro c hc
  obtain ⟨j, hj⟩ := colPos_isSome_of_mem cs c hc
  obtain ⟨p, hp⟩ := Option.isSome_iff_exists.mp (hall c hc)
  rw [DataFrame.getCol, DataFrame.getCol]
  dsimp only
  rw [hj, hp]
  simp only [Option.map_some', List.map_map]
  refine congrArg some (List.map_congr_left fun row _ => ?_)
  simp only [Function.comp_apply]
  rw [cellAtPos]
  rw [getD_map_colPos
    (fun c' => match colPos df.cols c' with | some p' => cellAtPos row p' | none => none)
    none cs c j hj]
  rw [hp]

theorem sourceTexts_eq (df : DataFrame) (p : Nat)
    (hp : colPos df.cols ColumnNames.SOURCE = some p) :
    sourceTexts df = df.rows.map fun row => cellStr (cellAtPos row p) := by
  rw [sourceTexts, hp]

theorem pairTexts_eq (df : DataFrame) (pp hq : Nat)
    (hpp : colPos df.cols ColumnNames.PREMISE = some pp)
    (hhp : colPos df.cols ColumnNames.HYPOTHESIS = some hq) :
    pairTexts df
      = df.rows.map fun row => (cellStr (cellAtPos row pp), cellStr (cellAtPos row hq)) := by
  rw [pairTexts, hpp, hhp]

theorem getitemM7_eq (df : DataFrame) (p : Nat)
    (hidx : df.index = List.range df.rows.length)
    (hp : colPos df.cols ColumnNames.SOURCE = some p)
    (i : Nat) (hi : i < df.rows.length) :
    (TaskDataset.getitemM7 df i).1 =
      (df.rows.get? i).map fun row => [cellStr (cellAtPos row p)] := by
  rw [TaskDataset.getitemM7]
  dsimp only
  rw [hidx, labelPos_range df.rows.length i hi, hp]

theorem getitemM8_eq (df : DataFrame) (pp hq : Nat)
    (hpp : colPos df.cols ColumnNames.PREMISE = some pp)
    (hhp : colPos df.cols ColumnNames.HYPOTHESIS = some hq) (i : Nat) :
    (TaskDataset.getitemM8 df i).1 =
      (df.rows.get? i).map fun row =>
        [cellStr (cellAtPos row pp), cellStr (cellAtPos row hq)] := by
  cases hrow : df.rows.get? i with
  | none =>
    rw [TaskDataset.getitemM8]
    dsimp only
    rw [hrow]
    rfl
  | some row =>
    rw [TaskDataset.getitemM8]
    dsimp only
    rw [hrow, hpp, hhp]
    rfl

theorem items7_eq (df : DataFrame) (p : Nat)
    (hidx : df.index = List.range df.rows.length)
    (hp : colPos df.cols ColumnNames.SOURCE = some p) :
    mapMO (fun i => (TaskDataset.getitemM7 df i).1) (List.range df.rows.length)
      = some ((sourceTexts df).map fun s => [s]) := by
  rw [sourceTexts_eq df p hp, List.map_map]
  exact mapMO_range_get _ df.rows _ fun i hi => getitemM7_eq df p hidx hp i hi

theorem items8_eq (df : DataFrame) (pp hq : Nat)
    (hpp : colPos df.cols ColumnNames.PREMISE = some pp)
    (hhp : colPos df.cols ColumnNames.HYPOTHESIS = some hq) :
    mapMO (fun i => (TaskDataset.getitemM8 df i).1) (List.range df.rows.length)
      = some ((pairTexts df).map fun pr => [pr.1, pr.2]) := by
  rw [pairTexts_eq df pp hq hpp hhp, List.map_map]
  exact mapMO_range_get _ df.rows _ fun i _ => getitemM8_eq df pp hq hpp hhp i

theorem batches7_eq (m : Lab7Model) (L bs : Nat) (hbs : bs ≠ 0) (texts : List String) :
    mapMO (fun b => inferBatch7 m L (collate b)) (chunkList bs (texts.map fun s => [s]))
      = some ((chunkList bs texts).map (batchPreds7 m L)) := by
  rw [chunkList_map bs hbs _ texts, mapMO_map_comp]
  apply mapMO_eq_map
  intro c hc
  have hcne : c ≠ [] := chunkList_ne_nil bs hbs texts c hc
  show inferBatch7 m L (collate (c.map fun s => [s])) = _
  rw [collate_singletons c hcne]
  rfl

theorem batches8_eq (m8 : Lab8Model) (hm8 : m8.modelSet = true) (bs : Nat) (hbs : bs ≠ 0)
    (prs : List (String × String)) :
    mapMO (fun b => inferBatch8 m8 (collate b)) (chunkList bs (prs.map fun pr => [pr.1, pr.2]))
      = some ((chunkList bs prs).map fun c =>
          batchPreds8 m8 (c.map Prod.fst) (c.map Prod.snd)) := by
  rw [chunkList_map bs hbs _ prs, mapMO_map_comp]
  apply mapMO_eq_map
  intro c hc
  have hcne : c ≠ [] := chunkList_ne_nil bs hbs prs c hc
  show inferBatch8 m8 (collate (c.map fun pr => [pr.1, pr.2])) = _
  rw [collate_pairs c hcne]
  rw [inferBatch8]
  simp [hm8, batchPreds8]
  intro s hs
  simp at hs

theorem batchPreds7_length (m : Lab7Model) (L : Nat)
    (htok : ∀ ts pd tr, (m.tokenize ts pd tr).length = ts.length)
    (hgen : ∀ xs l, (m.generate xs l).length = xs.length)
    (hdec : ∀ xs, (m.batchDecode xs).length = xs.length)
    (ts : List String) : (batchPreds7 m L ts).length = ts.length := by
  rw [batchPreds7, List.length_map, hdec, hgen, htok]

theorem batchPreds8_length (m8 : Lab8Model)
    (htokp : ∀ a b pd tr, a.length = b.length → (m8.tokenizePair a b pd tr).length = a.length)
    (hlog : ∀ t, (m8.logits t).length = t.length)
    (c : List (String × String)) :
    (batchPreds8 m8 (c.map Prod.fst) (c.map Prod.snd)).length = c.length := by
  rw [batchPreds8, List.length_map, hlog, htokp _ _ _ _ (by simp), List.length_map]

theorem inferDataset7_spec (m : Lab7Model) (L bs : Nat) (df : DataFrame) (p : Nat)
    (hbs : bs ≠ 0)
    (hidx : df.index = List.range df.rows.length)
    (hp : colPos df.cols ColumnNames.SOURCE = some p)
    (htok : ∀ ts pd tr, (m.tokenize ts pd tr).length = ts.length)
    (hgen : ∀ xs l, (m.generate xs l).length = xs.length)
    (hdec : ∀ xs, (m.batchDecode xs).length = xs.length) :
    inferDataset7 m L bs df =
      df.setCol ColumnNames.PREDICTION
        (((chunkList bs (sourceTexts df)).map (batchPreds7 m L)).flatten) ∧
    (((chunkList bs (sourceTexts df)).map (batchPreds7 m L)).flatten).length
      = df.rows.length := by
  constructor
  · rw [inferDataset7, if_neg hbs, items7_eq df p hidx hp, Option.some_bind,
      batches7_eq m L bs hbs (sourceTexts df), Option.some_bind]
  · rw [flatten_map_length _ _ fun c _ => batchPreds7_length m L htok hgen hdec c,
      chunkList_flatten bs hbs, sourceTexts_eq df p hp, List.length_map]

theorem inferDataset8_spec (m8 : Lab8Model) (bs : Nat) (df : DataFrame) (pp hq qt : Nat)
    (hbs : bs ≠ 0)
    (hm8 : m8.modelSet = true)
    (hpp : colPos df.cols ColumnNames.PREMISE = some pp)
    (hhp : colPos df.cols ColumnNames.HYPOTHESIS = some hq)
    (ht : colPos df.cols ColumnNames.TARGET = some qt)
    (hpred : colPos df.cols ColumnNames.PREDICTION = none)
    (hrect : ∀ r ∈ df.rows, r.length = df.cols.length)
    (htokp : ∀ a b pd tr, a.length = b.length → (m8.tokenizePair a b pd tr).length = a.length)
    (hlog : ∀ t, (m8.logits t).length = t.length) :
    ∃ res, inferDataset8 m8 bs df = some res ∧
      res.cols = [ColumnNames.TARGET, ColumnNames.PREDICTION] ∧
      res.rows.length = df.rows.length ∧
      res.getCol ColumnNames.PREDICTION =
        some (((((chunkList bs (pairTexts df)).map fun c =>
          batchPreds8 m8 (c.map Prod.fst) (c.map Prod.snd)).flatten).map some)) ∧
      (((chunkList bs (pairTexts df)).map fun c =>
          batchPreds8 m8 (c.map Prod.fst) (c.map Prod.snd)).flatten).length
        = df.rows.length := by
  have hplen :
      (((chunkList bs (pairTexts df)).map fun c =>
          batchPreds8 m8 (c.map Prod.fst) (c.map Prod.snd)).flatten).length
        = df.rows.length := by
    rw [flatten_map_length _ _ fun c _ => batchPreds8_length m8 htokp hlog c,
      chunkList_flatten bs hbs, pairTexts_eq df pp hq hpp hhp, List.length_map]
  obtain ⟨res1, hres1, hc1, _, hlen1, hget1, hpres1⟩ :=
    setCol_append_spec df ColumnNames.PREDICTION
      (((chunkList bs (pairTexts df)).map fun c =>
        batchPreds8 m8 (c.map Prod.fst) (c.map Prod.snd)).flatten)
      hpred hplen hrect
  have hall : ∀ c ∈ [ColumnNames.TARGET, ColumnNames.PREDICTION],
      (colPos res1.cols c).isSome := by
    intro c hc
    rcases List.mem_cons.mp hc with h1 | h2
    · subst h1
      rw [hc1, colPos_append_left df.cols _ _ qt ht]
      rfl
    · have : c = ColumnNames.PREDICTION := by simpa using h2
      subst this
      rw [hc1, colPos_append_right df.cols _ hpred]
      rfl
  obtain ⟨res, hres, hcols, _, hlen, hgets⟩ := selectCols_spec res1 _ hall
  refine ⟨res, ?_, hcols, by rw [hlen, hlen1], ?_, hplen⟩
  · rw [inferDataset8, if_neg hbs, items8_eq df pp hq hpp hhp, Option.some_bind,
      batches8_eq m8 hm8 bs hbs (pairTexts df), Option.some_bind, hres1, Option.some_bind,
      hres]
  · rw [hgets ColumnNames.PREDICTION (by simp), hget1]

theorem evalLoop_cons_some {S : Type} (registry : String → List Cell → List Cell → List (String × S))
    (keyOf : String → String) (preds targets : List Cell) (mt : String) (rest : List String)
    (acc : List (String × S)) (v : S)
    (hv : dictGet (registry mt preds targets) (keyOf mt) = some v) :
    evalLoop registry keyOf preds targets (mt :: rest) acc
      = evalLoop registry keyOf preds targets rest (dictInsert acc mt v) := by
  rw [evalLoop, hv]

theorem evalLoop_spec {S : Type} (registry : String → List Cell → List Cell → List (String × S))
    (keyOf : String → String) (preds targets : List Cell) (f : String → S) :
    ∀ (metrics : List String) (acc : List (String × S)),
      metrics.Nodup →
      (∀ mt ∈ metrics, dictGet (registry mt preds targets) (keyOf mt) = some (f mt)) →
      (∀ mt ∈ metrics, mt ∉ acc.map Prod.fst) →
      evalLoop registry keyOf preds targets metrics acc
        = some (acc ++ metrics.map fun mt => (mt, f mt)) := by
  intro metrics
  induction metrics with
  | nil => intro acc _ _ _; simp [evalLoop]
  | cons mt rest ih =>
    intro acc hnd hf hacc
    rw [evalLoop_cons_some registry keyOf preds targets mt rest acc (f mt) (hf mt (by simp))]
    rw [dictInsert_of_not_mem acc mt (f mt) (hacc mt (by simp))]
    have hnotin : ∀ mt' ∈ rest, mt' ∉ (acc ++ [(mt, f mt)]).map Prod.fst := by
      intro mt' h'
      rw [List.map_append]
      intro hmem
      rcases List.mem_append.mp hmem with h1 | h2
      · exact hacc mt' (by simp [h']) h1
      · have : mt' = mt := by simpa using h2
        subst this
        exact (List.nodup_cons.mp hnd).1 h'
    rw [ih (acc ++ [(mt, f mt)]) (List.Nodup.of_cons hnd)
      (fun mt' h' => hf mt' (by simp [h'])) hnotin]
    simp

/-- C1: for every batch of input texts, lab 7's `_infer_batch` tokenizes the
batch with padding and truncation enabled (`true, true` below), has the
model decode under the `max_length` bound `L` (`generate` is the model's
beam-search decoding), batch-decodes the generated ids, and — whenever the
library calls return one row per input, as the tokenizer, `generate` and
`batch_decode` contracts promise — returns exactly one prediction string
per input text. -/
theorem spec_C1 (m : Lab7Model) (L : Nat) (texts : List String)
    (htok : ∀ ts pd tr, (m.tokenize ts pd tr).length = ts.length)
    (hgen : ∀ xs l, (m.generate xs l).length = xs.length)
    (hdec : ∀ xs, (m.batchDecode xs).length = xs.length) :
    inferBatch7 m L [texts]
      = some ((m.batchDecode (m.generate (m.tokenize texts true true) L)).map pyStrip) ∧
    ∀ r, inferBatch7 m L [texts] = some r → r.length = texts.length := by
  constructor
  · rfl
  · intro r hr
    have hr' : some (batchPreds7 m L texts) = some r := by rw [← hr]; rfl
    rw [← Option.some.inj hr', batchPreds7_length m L htok hgen hdec]

/-- Witness for C1: the theorem evaluated at a concrete model and batch. -/
theorem spec_C1_witness :
    inferBatch7 wModel7 4 [["ab", "c"]]
      = some ((wModel7.batchDecode
          (wModel7.generate (wModel7.tokenize ["ab", "c"] true true) 4)).map pyStrip) ∧
    ∀ r, inferBatch7 wModel7 4 [["ab", "c"]] = some r →
      r.length = (["ab", "c"] : List String).length :=
  spec_C1 wModel7 4 ["ab", "c"]
    (fun ts _ _ => by simp [wModel7])
    (fun _ _ => rfl)
    (fun xs => by simp [wModel7])

/-- C2: parameter-efficient fine-tuning is a stub — `SFTPipeline.__init__`
stores nothing (the attribute dictionary of the new object is empty for
every model name, dataset and SFT parameters) and `SFTPipeline.run` returns
`None` while leaving the attributes and every other observable piece of
state unchanged. -/
theorem spec_C2 (M D P W : Type) (modelName : M) (dataset : D) (sftParams : P) (world : W) :
    SFTPipeline.init modelName dataset sftParams = [] ∧
    SFTPipeline.run (SFTPipeline.init modelName dataset sftParams) world
      = (none, SFTPipeline.init modelName dataset sftParams, world) :=
  ⟨rfl, rfl⟩

/-- C6: `TaskDataset` (in both labs) is a table-like wrapper that preserves
its table — its length is the wrapped DataFrame's number of rows, its
`data` property returns exactly the wrapped DataFrame, and none of
`__len__`, `__getitem__`, `data` changes the wrapped DataFrame. -/
theorem spec_C6 (d : DataFrame) (i : Nat) :
    (TaskDataset.lenM (TaskDataset.mk7 d)).1 = d.rows.length ∧
    (TaskDataset.dataM (TaskDataset.mk7 d)).1 = d ∧
    (TaskDataset.lenM (TaskDataset.mk7 d)).2 = d ∧
    (TaskDataset.dataM (TaskDataset.mk7 d)).2 = d ∧
    (TaskDataset.getitemM7 (TaskDataset.mk7 d) i).2 = d ∧
    (TaskDataset.lenM (TaskDataset.mk8 d)).1 = d.rows.length ∧
    (TaskDataset.dataM (TaskDataset.mk8 d)).1 = d ∧
    (TaskDataset.lenM (TaskDataset.mk8 d)).2 = d ∧
    (TaskDataset.dataM (TaskDataset.mk8 d)).2 = d ∧
    (TaskDataset.getitemM8 (TaskDataset.mk8 d) i).2 = d :=
  ⟨rfl, rfl, rfl, rfl, rfl, rfl, rfl, rfl, rfl, rfl⟩

/-- C10: lab 8's `infer_sample` returns `None` whenever the pipeline's
model is falsy, and with the model set it returns exactly the first element
of the list `_infer_batch` produces on the singleton batch holding the
sample. -/
theorem spec_C10 (m : Lab8Model) (sample : List String) :
    (m.modelSet = false → inferSample8 m sample = some none) ∧
    (m.modelSet = true → ∀ p rest, inferBatch8 m [sample] = some (p :: rest) →
      inferSample8 m sample = some (some p)) := by
  constructor
  · intro h
    simp [inferSample8, h]
  · intro h p rest hb
    simp [inferSample8, h, hb]

/-- Witness for C10: both branches evaluated on concrete pipelines. -/
theorem spec_C10_witness :
    inferSample8 wModel8Off ["a", "b"] = some none ∧
    inferSample8 wModel8 ["a", "b"] = some (some "1") :=
  ⟨(spec_C10 wModel8Off ["a", "b"]).1 rfl,
   (spec_C10 wModel8 ["a", "b"]).2 rfl "1" [] (by decide)⟩

/-- C3: in both labs, `infer_dataset` iterates the dataset through a
sequential `DataLoader` in batches of the pipeline's batch size and returns
a DataFrame holding exactly one prediction per dataset row, in dataset
order, stored in the `prediction` column: the column equals the
concatenation, batch by batch, of `_infer_batch`'s outputs on the
consecutive chunks of the dataset's items, and its length is the number of
rows. -/
theorem spec_C3 (m : Lab7Model) (L bs : Nat) (df : DataFrame) (p : Nat)
    (m8 : Lab8Model) (bs8 : Nat) (df8 : DataFrame) (pp hq qt : Nat)
    (hbs : bs ≠ 0)
    (hidx : df.index = List.range df.rows.length)
    (hp : colPos df.cols ColumnNames.SOURCE = some p)
    (hpred : colPos df.cols ColumnNames.PREDICTION = none)
    (hrect : ∀ r ∈ df.rows, r.length = df.cols.length)
    (htok : ∀ ts pd tr, (m.tokenize ts pd tr).length = ts.length)
    (hgen : ∀ xs l, (m.generate xs l).length = xs.length)
    (hdec : ∀ xs, (m.batchDecode xs).length = xs.length)
    (hbs8 : bs8 ≠ 0)
    (hm8 : m8.modelSet = true)
    (hpp : colPos df8.cols ColumnNames.PREMISE = some pp)
    (hhp : colPos df8.cols ColumnNames.HYPOTHESIS = some hq)
    (ht : colPos df8.cols ColumnNames.TARGET = some qt)
    (hpred8 : colPos df8.cols ColumnNames.PREDICTION = none)
    (hrect8 : ∀ r ∈ df8.rows, r.length = df8.cols.length)
    (htokp : ∀ a b pd tr, a.length = b.length → (m8.tokenizePair a b pd tr).length = a.length)
    (hlog : ∀ t, (m8.logits t).length = t.length) :
    (∃ res, inferDataset7 m L bs df = some res ∧
      res.rows.length = df.rows.length ∧
      res.getCol ColumnNames.PREDICTION
        = some ((((chunkList bs (sourceTexts df)).map (batchPreds7 m L)).flatten).map some) ∧
      (((chunkList bs (sourceTexts df)).map (batchPreds7 m L)).flatten).length
        = df.rows.length) ∧
    (∃ res8, inferDataset8 m8 bs8 df8 = some res8 ∧
      res8.rows.length = df8.rows.length ∧
      res8.getCol ColumnNames.PREDICTION
        = some ((((chunkList bs8 (pairTexts df8)).map fun c =>
            batchPreds8 m8 (c.map Prod.fst) (c.map Prod.snd)).flatten).map some) ∧
      (((chunkList bs8 (pairTexts df8)).map fun c =>
          batchPreds8 m8 (c.map Prod.fst) (c.map Prod.snd)).flatten).length
        = df8.rows.length) := by
  constructor
  · obtain ⟨heq, hlen⟩ := inferDataset7_spec m L bs df p hbs hidx hp htok hgen hdec
    obtain ⟨res, hres, _, _, hlenr, hget, _⟩ :=
      setCol_append_spec df ColumnNames.PREDICTION
        (((chunkList bs (sourceTexts df)).map (batchPreds7 m L)).flatten) hpred hlen hrect
    exact ⟨res, by rw [heq, hres], by rw [hlenr], hget, hlen⟩
  · obtain ⟨res8, h1, _, h3, h4, h5⟩ :=
      inferDataset8_spec m8 bs8 df8 pp hq qt hbs8 hm8 hpp hhp ht hpred8 hrect8 htokp hlog
    exact ⟨res8, h1, h3, h4, h5⟩

/-- Witness for C3: both pipelines evaluated on concrete datasets and
models. -/
theorem spec_C3_witness :
    (∃ res, inferDataset7 wModel7 4 2 wDf7 = some res ∧
      res.rows.length = wDf7.rows.length ∧
      res.getCol ColumnNames.PREDICTION
        = some ((((chunkList 2 (sourceTexts wDf7)).map (batchPreds7 wModel7 4)).flatten).map
            some) ∧
      (((chunkList 2 (sourceTexts wDf7)).map (batchPreds7 wModel7 4)).flatten).length
        = wDf7.rows.length) ∧
    (∃ res8, inferDataset8 wModel8 2 wDf8 = some res8 ∧
      res8.rows.length = wDf8.rows.length ∧
      res8.getCol ColumnNames.PREDICTION
        = some ((((chunkList 2 (pairTexts wDf8)).map fun c =>
            batchPreds8 wModel8 (c.map Prod.fst) (c.map Prod.snd)).flatten).map some) ∧
      (((chunkList 2 (pairTexts wDf8)).map fun c =>
          batchPreds8 wModel8 (c.map Prod.fst) (c.map Prod.snd)).flatten).length
        = wDf8.rows.length) :=
  spec_C3 wModel7 4 2 wDf7 0 wModel8 2 wDf8 0 1 2
    (by decide) (by decide) (by decide) (by decide) (by decide)
    (fun ts _ _ => by simp [wModel7]) (fun _ _ => rfl) (fun xs => by simp [wModel7])
    (by decide) rfl (by decide) (by decide) (by decide) (by decide) (by decide)
    (fun a b _ _ _ => by simp [wModel8]) (fun t => by simp [wModel8])

/-- C8: lab 8's `infer_dataset` returns a DataFrame with only the `target`
and `prediction` columns — `premise` and `hypothesis` are dropped — with
one row per dataset item, whereas lab 7's `infer_dataset` keeps all
original columns (each readable unchanged) and appends the `prediction`
column. -/
theorem spec_C8 (m : Lab7Model) (L bs : Nat) (df : DataFrame) (p : Nat)
    (m8 : Lab8Model) (bs8 : Nat) (df8 : DataFrame) (pp hq qt : Nat)
    (hbs : bs ≠ 0)
    (hidx : df.index = List.range df.rows.length)
    (hp : colPos df.cols ColumnNames.SOURCE = some p)
    (hpred : colPos df.cols ColumnNames.PREDICTION = none)
    (hrect : ∀ r ∈ df.rows, r.length = df.cols.length)
    (htok : ∀ ts pd tr, (m.tokenize ts pd tr).length = ts.length)
    (hgen : ∀ xs l, (m.generate xs l).length = xs.length)
    (hdec : ∀ xs, (m.batchDecode xs).length = xs.length)
    (hbs8 : bs8 ≠ 0)
    (hm8 : m8.modelSet = true)
    (hpp : colPos df8.cols ColumnNames.PREMISE = some pp)
    (hhp : colPos df8.cols ColumnNames.HYPOTHESIS = some hq)
    (ht : colPos df8.cols ColumnNames.TARGET = some qt)
    (hpred8 : colPos df8.cols ColumnNames.PREDICTION = none)
    (hrect8 : ∀ r ∈ df8.rows, r.length = df8.cols.length)
    (htokp : ∀ a b pd tr, a.length = b.length → (m8.tokenizePair a b pd tr).length = a.length)
    (hlog : ∀ t, (m8.logits t).length = t.length) :
    (∃ res, inferDataset7 m L bs df = some res ∧
      res.cols = df.cols ++ [ColumnNames.PREDICTION] ∧
      (∀ c q, colPos df.cols c = some q → res.getCol c = df.getCol c) ∧
      res.rows.length = df.rows.length) ∧
    (∃ res8, inferDataset8 m8 bs8 df8 = some res8 ∧
      res8.cols = [ColumnNames.TARGET, ColumnNames.PREDICTION] ∧
      ColumnNames.PREMISE ∉ res8.cols ∧
      ColumnNames.HYPOTHESIS ∉ res8.cols ∧
      res8.rows.length = df8.rows.length) := by
  constructor
  · obtain ⟨heq, hlen⟩ := inferDataset7_spec m L bs df p hbs hidx hp htok hgen hdec
    obtain ⟨res, hres, hcols, _, hlenr, _, hpresv⟩ :=
      setCol_append_spec df ColumnNames.PREDICTION
        (((chunkList bs (sourceTexts df)).map (batchPreds7 m L)).flatten) hpred hlen hrect
    exact ⟨res, by rw [heq, hres], hcols, hpresv, by rw [hlenr]⟩
  · obtain ⟨res8, h1, h2, h3, _, _⟩ :=
      inferDataset8_spec m8 bs8 df8 pp hq qt hbs8 hm8 hpp hhp ht hpred8 hrect8 htokp hlog
    refine ⟨res8, h1, h2, ?_, ?_, h3⟩
    · rw [h2]
      decide
    · rw [h2]
      decide

/-- Witness for C8: both pipelines evaluated on concrete datasets and
models. -/
theorem spec_C8_witness :
    (∃ res, inferDataset7 wModel7 4 2 wDf7 = some res ∧
      res.cols = wDf7.cols ++ [ColumnNames.PREDICTION] ∧
      (∀ c q, colPos wDf7.cols c = some q → res.getCol c = wDf7.getCol c) ∧
      res.rows.length = wDf7.rows.length) ∧
    (∃ res8, inferDataset8 wModel8 2 wDf8 = some res8 ∧
      res8.cols = [ColumnNames.TARGET, ColumnNames.PREDICTION] ∧
      ColumnNames.PREMISE ∉ res8.cols ∧
      ColumnNames.HYPOTHESIS ∉ res8.cols ∧
      res8.rows.length = wDf8.rows.length) :=
  spec_C8 wModel7 4 2 wDf7 0 wModel8 2 wDf8 0 1 2
    (by decide) (by decide) (by decide) (by decide) (by decide)
    (fun ts _ _ => by simp [wModel7]) (fun _ _ => rfl) (fun xs => by simp [wModel7])
    (by decide) rfl (by decide) (by decide) (by decide) (by decide) (by decide)
    (fun a b _ _ _ => by simp [wModel8]) (fun t => by simp [wModel8])

theorem inferBatch7_stripped (m : Lab7Model) (L : Nat) (sb : List (List String))
    (r : List String) (h : inferBatch7 m L sb = some r) : ∀ s ∈ r, noEdgeWS s = true := by
  intro s hs
  rw [inferBatch7] at h
  cases hh : sb.head? with
  | none => rw [hh] at h; simp at h
  | some texts =>
    rw [hh] at h
    simp only [Option.map_some', Option.some.injEq] at h
    rw [← h, batchPreds7] at hs
    obtain ⟨d, _, rfl⟩ := List.mem_map.mp hs
    exact noEdgeWS_pyStrip d

/-- C9: every prediction string lab 7's `_infer_batch` produces — and hence
every string `infer_sample` returns and every prediction cell
`infer_dataset` writes — has no leading or trailing whitespace. -/
theorem spec_C9 (m : Lab7Model) (L bs : Nat) (sb : List (List String))
    (sample : List String) (df : DataFrame)
    (hpred : colPos df.cols ColumnNames.PREDICTION = none)
    (hrect : ∀ r ∈ df.rows, r.length = df.cols.length) :
    (∀ r, inferBatch7 m L sb = some r → ∀ s ∈ r, noEdgeWS s = true) ∧
    (∀ s, inferSample7 m L sample = some s → noEdgeWS s = true) ∧
    (∀ res cells, inferDataset7 m L bs df = some res →
      res.getCol ColumnNames.PREDICTION = some cells →
      ∀ cl ∈ cells, ∃ st, cl = some st ∧ noEdgeWS st = true) := by
  refine ⟨fun r hr => inferBatch7_stripped m L sb r hr, ?_, ?_⟩
  · intro s hsome
    rw [inferSample7] at hsome
    obtain ⟨r, hr, hh⟩ := Option.bind_eq_some.mp hsome
    have hmem : s ∈ r := by
      cases r with
      | nil => simp at hh
      | cons a t =>
        simp only [List.head?_cons, Option.some.injEq] at hh
        simp [← hh]
    exact inferBatch7_stripped m L [sample] r hr s hmem
  · intro res cells hres hget cl hcl
    rw [inferDataset7] at hres
    by_cases h0 : bs = 0
    · rw [if_pos h0] at hres
      simp at hres
    · rw [if_neg h0] at hres
      obtain ⟨items, hitems, hres⟩ := Option.bind_eq_some.mp hres
      obtain ⟨preds, hpreds, hres⟩ := Option.bind_eq_some.mp hres
      have hlen : preds.flatten.length = df.rows.length := by
        rw [DataFrame.setCol] at hres
        by_cases hl : preds.flatten.length = df.rows.length
        · exact hl
        · rw [if_neg hl] at hres
          simp at hres
      obtain ⟨res', hres', _, _, _, hget', _⟩ :=
        setCol_append_spec df ColumnNames.PREDICTION preds.flatten hpred hlen hrect
      have hrr : res' = res := by
        rw [hres'] at hres
        exact Option.some.inj hres
      subst hrr
      rw [hget'] at hget
      have hcells : cells = preds.flatten.map some := (Option.some.inj hget).symm
      subst hcells
      obtain ⟨st, hst, rfl⟩ := List.mem_map.mp hcl
      refine ⟨st, rfl, ?_⟩
      obtain ⟨pr, hpr, hstpr⟩ := List.mem_flatten.mp hst
      obtain ⟨b, _, hb⟩ := mapMO_mem _ _ preds hpreds pr hpr
      exact inferBatch7_stripped m L (collate b) pr hb st hstpr

/-- Witness for C9: the theorem evaluated at a concrete model, batch,
sample and dataset. -/
theorem spec_C9_witness :
    (∀ r, inferBatch7 wModel7 4 [[" x "]] = some r → ∀ s ∈ r, noEdgeWS s = true) ∧
    (∀ s, inferSample7 wModel7 4 ["hi"] = some s → noEdgeWS s = true) ∧
    (∀ res cells, inferDataset7 wModel7 4 2 wDf7 = some res →
      res.getCol ColumnNames.PREDICTION = some cells →
      ∀ cl ∈ cells, ∃ st, cl = some st ∧ noEdgeWS st = true) :=
  spec_C9 wModel7 4 2 [[" x "]] ["hi"] wDf7 (by decide) (by decide)

/-- C5: in both labs, `TaskEvaluator.run` reads the predictions file (here
already parsed into `csv`), computes each metric through the registry's
`load(...).compute(...)` (abstracted as `registry`), and returns a
dictionary with exactly one score entry per requested metric; in lab 7 the
entry stored for the `rouge` metric is the score dict's `rougeL` entry. -/
theorem spec_C5 {S : Type} (registry : String → List Cell → List Cell → List (String × S))
    (csv : DataFrame) (metrics : List String) (preds targets : List Cell)
    (f g : String → S)
    (hnd : metrics.Nodup)
    (hp : csv.getCol ColumnNames.PREDICTION = some preds)
    (ht : csv.getCol ColumnNames.TARGET = some targets)
    (hf : ∀ mt ∈ metrics, dictGet (registry mt preds targets) (scoreKey mt) = some (f mt))
    (hg : ∀ mt ∈ metrics, dictGet (registry mt preds targets) mt = some (g mt)) :
    evaluatorRun7 registry csv metrics = some (metrics.map fun mt => (mt, f mt)) ∧
    evaluatorRun8 registry csv metrics = some (metrics.map fun mt => (mt, g mt)) ∧
    ∀ mt ∈ metrics,
      dictGet (metrics.map fun mt2 => (mt2, f mt2)) mt
        = dictGet (registry mt preds targets) (if mt = "rouge" then "rougeL" else mt) := by
  refine ⟨?_, ?_, ?_⟩
  · rw [evaluatorRun7, hp, ht]
    show evalLoop registry scoreKey preds targets metrics [] = _
    rw [evalLoop_spec registry scoreKey preds targets f metrics [] hnd hf (by simp)]
    simp
  · rw [evaluatorRun8, hp, ht]
    show evalLoop registry (fun metric => metric) preds targets metrics [] = _
    rw [evalLoop_spec registry (fun metric => metric) preds targets g metrics [] hnd hg
      (by simp)]
    simp
  · intro mt hmt
    rw [dictGet_map_self f metrics mt hmt]
    exact (hf mt hmt).symm

/-- Witness for C5: the evaluator run on a concrete predictions table, a
concrete registry and the metric list `rouge, accuracy`. -/
theorem spec_C5_witness :
    evaluatorRun7 wRegistry wCsv ["rouge", "accuracy"]
      = some ((["rouge", "accuracy"] : List String).map fun mt =>
          (mt, if mt = "rouge" then 3 else 2)) ∧
    evaluatorRun8 wRegistry wCsv ["rouge", "accuracy"]
      = some ((["rouge", "accuracy"] : List String).map fun mt => (mt, 2)) ∧
    ∀ mt ∈ (["rouge", "accuracy"] : List String),
      dictGet ((["rouge", "accuracy"] : List String).map fun mt2 =>
          (mt2, if mt2 = "rouge" then 3 else 2)) mt
        = dictGet (wRegistry mt [some "x", some "z"] [some "x", some "y"])
            (if mt = "rouge" then "rougeL" else mt) :=
  spec_C5 wRegistry wCsv ["rouge", "accuracy"] [some "x", some "z"] [some "x", some "y"]
    (fun mt => if mt = "rouge" then 3 else 2) (fun _ => 2)
    (by decide) (by decide) (by decide) (by decide) (by decide)

/-- C4 counterexample: on a raw lab 8 frame whose rows all carry a `label`,
the claim's description (drop only the rows missing a value in the renamed
canonical column) keeps three rows, but the code's `transform` also drops
the row with a missing `premise` and the duplicate row, keeping one. -/
theorem spec_C4_cex :
    some (transform8 cexRaw8) ≠ claimedTransform8 cexRaw8 ∧
    (transform8 cexRaw8).rows.length = 1 ∧
    (claimedTransform8 cexRaw8).map (fun df => df.rows.length) = some 3 := by
  decide

/-- C4 amended: `transform` renames the raw columns to the canonical names,
reindexes the surviving rows consecutively from 0 and leaves the surviving
cell values unchanged; lab 7 drops exactly the rows with a missing value in
the `source`/`target` columns, while lab 8 drops the rows with a missing
value in ANY column and additionally the rows equal to an earlier row. -/
theorem spec_C4_amended :
    (∀ (raw : DataFrame) (rcols : List String),
      rcols = raw.cols.map (renameMap
        [("article", ColumnNames.SOURCE), ("abstract", ColumnNames.TARGET)]) →
      raw.index.length = raw.rows.length →
      (colPos rcols ColumnNames.SOURCE).isSome →
      (colPos rcols ColumnNames.TARGET).isSome →
      transform7 raw = some
        { cols := rcols,
          index := List.range (raw.rows.filter
            (rowCompleteOn rcols [ColumnNames.SOURCE, ColumnNames.TARGET])).length,
          rows := raw.rows.filter
            (rowCompleteOn rcols [ColumnNames.SOURCE, ColumnNames.TARGET]) }) ∧
    (∀ (raw : DataFrame) (rcols8 : List String),
      rcols8 = raw.cols.map (renameMap [("label", ColumnNames.TARGET)]) →
      raw.index.length = raw.rows.length →
      transform8 raw =
        { cols := rcols8,
          index := List.range (firstOccurrences
            (raw.rows.filter fun r => r.all Option.isSome) []).length,
          rows := firstOccurrences (raw.rows.filter fun r => r.all Option.isSome) [] }) := by
  constructor
  · intro raw rcols hr hlen hs ht
    subst hr
    have hcond : (([ColumnNames.SOURCE, ColumnNames.TARGET] : List String).all
        fun c => (colPos (raw.cols.map (renameMap
          [("article", ColumnNames.SOURCE), ("abstract", ColumnNames.TARGET)])) c).isSome)
        = true := by
      simp only [List.all_cons, List.all_nil, Bool.and_true]
      rw [hs, ht]
      rfl
    rw [transform7]
    show (DataFrame.dropnaSubset
        { cols := raw.cols.map (renameMap
            [("article", ColumnNames.SOURCE), ("abstract", ColumnNames.TARGET)]),
          index := raw.index, rows := raw.rows }
        [ColumnNames.SOURCE, ColumnNames.TARGET]).map DataFrame.resetIndex = _
    rw [DataFrame.dropnaSubset]
    dsimp only
    rw [if_pos hcond, Option.map_some', DataFrame.resetIndex]
    dsimp only
    rw [zip_filter_map_snd
      (rowCompleteOn (raw.cols.map (renameMap
        [("article", ColumnNames.SOURCE), ("abstract", ColumnNames.TARGET)]))
        [ColumnNames.SOURCE, ColumnNames.TARGET]) raw.index raw.rows hlen]
  · intro raw rcols8 hr hlen
    subst hr
    rw [transform8]
    show (DataFrame.dropDuplicates (DataFrame.dropnaAll
        { cols := raw.cols.map (renameMap [("label", ColumnNames.TARGET)]),
          index := raw.index, rows := raw.rows })).resetIndex = _
    rw [DataFrame.dropnaAll]
    dsimp only
    rw [DataFrame.dropDuplicates]
    dsimp only
    rw [zip_fst_snd, DataFrame.resetIndex]
    dsimp only
    rw [dedupRows_map_snd, zip_filter_map_snd (fun r => r.all Option.isSome)
      raw.index raw.rows hlen]

/-- Witness for C4's amended claim: both parts evaluated on concrete raw
frames. -/
theorem spec_C4_amended_witness :
    transform7 rawW7 = some
      { cols := rawW7.cols.map (renameMap
          [("article", ColumnNames.SOURCE), ("abstract", ColumnNames.TARGET)]),
        index := List.range (rawW7.rows.filter
          (rowCompleteOn (rawW7.cols.map (renameMap
            [("article", ColumnNames.SOURCE), ("abstract", ColumnNames.TARGET)]))
            [ColumnNames.SOURCE, ColumnNames.TARGET])).length,
        rows := rawW7.rows.filter
          (rowCompleteOn (rawW7.cols.map (renameMap
            [("article", ColumnNames.SOURCE), ("abstract", ColumnNames.TARGET)]))
            [ColumnNames.SOURCE, ColumnNames.TARGET]) } ∧
    transform8 cexRaw8 =
      { cols := cexRaw8.cols.map (renameMap [("label", ColumnNames.TARGET)]),
        index := List.range (firstOccurrences
          (cexRaw8.rows.filter fun r => r.all Option.isSome) []).length,
        rows := firstOccurrences (cexRaw8.rows.filter fun r => r.all Option.isSome) [] } :=
  ⟨spec_C4_amended.1 rawW7 _ rfl (by decide) (by decide) (by decide),
   spec_C4_amended.2 cexRaw8 _ rfl (by decide)⟩

end HelloLLM
